import Mathlib

/-!
Verification development for the moonly-backend trajectory synthesis and
shadow-interval engine (`src/services/data_store.py`, `src/app.py`).

Timestamps that participate in arithmetic (decimation gaps, 5-second
sampling cadence, shadow intervals) are modelled as `Int` seconds, exact,
matching the `datetime` arithmetic of the source at the second granularity
the spec guarantees.  Positions and velocities are modelled as rational
triples; the external numerical collaborators (spline evaluation,
inertial-to-Earth-fixed conversion, altitude norm, the shadow predicate,
declared out of scope by the spec) are parameters of the pipeline.
-/

namespace Moonly

/-- A raw state vector as produced by `format_epoch`: the `date` field is
modelled as already parsed to integer epoch seconds (the `strptime` call of
`get_sat_data` line 163; string parsing is an out-of-scope collaborator). -/
structure RawEpoch where
  date : Int
  location : ℚ × ℚ × ℚ
  velocity : ℚ × ℚ × ℚ
  deriving DecidableEq

/-- A decimated control epoch, the dict built at `data_store.py` lines
166-170 (`date`, `location`, `velocity`). -/
structure Epoch where
  date : Int
  location : ℚ × ℚ × ℚ
  velocity : ℚ × ℚ × ℚ
  deriving DecidableEq

/-- One step of the decimation loop body, `data_store.py` lines 162-170:
keep the epoch when no epoch has been kept yet, or when its date minus the
last kept date is at least `60 * 4 = 240` seconds.  `last` carries the date
of the last kept epoch (`epoches[-1]['date']`). -/
def decimateAux : Option Int → List RawEpoch → List Epoch
  | _, [] => []
  | none, r :: rs =>
      ⟨r.date, r.location, r.velocity⟩ :: decimateAux (some r.date) rs
  | some last, r :: rs =>
      if 240 ≤ r.date - last then
        ⟨r.date, r.location, r.velocity⟩ :: decimateAux (some r.date) rs
      else
        decimateAux (some last) rs

/-- The decimation pass of `get_sat_data`, `data_store.py` lines 162-170.
The loop header is `for i in range(len(raw_epoches) - 1)`: the final raw
epoch is never examined, hence the `dropLast`. -/
def decimate (raw : List RawEpoch) : List Epoch :=
  decimateAux none raw.dropLast

/-- The spec's decimation contract, stated on the sequence it is given
(spec section 4.1): iterate the epochs; keep one exactly when it is the
first, or its timestamp minus the last kept epoch's timestamp is at least
240 seconds.  Written list-append style with the kept prefix as
accumulator, to mirror the spec's wording rather than the code's loop. -/
def keepRuleStep (acc : List Epoch) (r : RawEpoch) : List Epoch :=
  match acc.getLast? with
  | none => acc ++ [⟨r.date, r.location, r.velocity⟩]
  | some e =>
      if 240 ≤ r.date - e.date then acc ++ [⟨r.date, r.location, r.velocity⟩]
      else acc

/-- Decimation as the spec words it, over every element of its input. -/
def keepRule (raw : List RawEpoch) : List Epoch :=
  raw.foldl keepRuleStep []

/-- Correspondence between the spec-worded fold and the loop-style body,
generalised over a non-empty accumulator of already-kept epochs. -/
theorem foldl_keepRuleStep (l : List RawEpoch) :
    ∀ (acc : List Epoch) (e : Epoch), acc.getLast? = some e →
      l.foldl keepRuleStep acc = acc ++ decimateAux (some e.date) l := by
  induction l with
  | nil => intro acc e _; simp [decimateAux]
  | cons r rs ih =>
      intro acc e hlast
      simp only [List.foldl_cons, keepRuleStep, hlast, decimateAux]
      by_cases hgap : 240 ≤ r.date - e.date
      · simp only [if_pos hgap]
        rw [ih (acc ++ [(⟨r.date, r.location, r.velocity⟩ : Epoch)])
          ⟨r.date, r.location, r.velocity⟩ (by simp)]
        simp
      · simp only [if_neg hgap]
        exact ih acc e hlast

/-- The loop-style decimator body computes the spec-worded fold. -/
theorem keepRule_eq_decimateAux (l : List RawEpoch) :
    keepRule l = decimateAux none l := by
  cases l with
  | nil => rfl
  | cons r rs =>
      simp only [keepRule, List.foldl_cons, keepRuleStep, List.getLast?_nil,
        decimateAux]
      rw [foldl_keepRuleStep rs ([] ++ [(⟨r.date, r.location, r.velocity⟩ : Epoch)])
        ⟨r.date, r.location, r.velocity⟩ (by simp)]
      simp

/-- The external numeric collaborators of `get_sat_data` (spec section 1:
out of scope, specified only at their interface): `curveEval` is
`curve.evaluate` of the Catmull-Rom spline fitted at line 176; `gcrfToItrf`
is the frame converter `GCRF_to_ITRF` (line 193, returning the Earth-fixed
position `r`); `altitudeOf` is the norm-minus-6371 computation of lines
204-205 (irrational square root, hence abstracted over the Earth-fixed
position); `inShadow` is `is_in_shadow(sun_m, pt*1000)` of lines 213-214,
as a function of the sample date (which determines `sun_m`) and the scaled
interpolated position. -/
structure Ext where
  curveEval : ℚ → ℚ × ℚ × ℚ
  gcrfToItrf : ℚ × ℚ × ℚ → ℚ × ℚ × ℚ → Int → ℚ × ℚ × ℚ
  altitudeOf : ℚ × ℚ × ℚ → ℚ
  inShadow : Int → ℚ × ℚ × ℚ → Bool

/-- A trajectory point, the dict appended at `data_store.py` lines 207-211.
`altitude` is an `Option` because the spec's data model declares the field
optional; the generator under study always sets it. -/
structure SatPoint where
  date : Int
  location : ℚ × ℚ × ℚ
  altitude : Option ℚ
  deriving DecidableEq

/-- Mutable state threaded through the generation loops of `get_sat_data`:
the `sat` list, the `shadow_intervals` list (numeric epoch seconds), and
`shadow_start`. -/
structure GenState where
  sat : List SatPoint
  intervals : List (Int × Int)
  shadowStart : Option Int
  deriving DecidableEq

/-- The number of inner-loop steps for the segment from `start` to `e`,
`data_store.py` line 183: `max(1, int((end - start).total_seconds() // 5))`
(Python floor division, hence `Int.ediv`). -/
def segSteps (start e : Int) : Nat :=
  (max 1 ((e - start).ediv 5)).toNat

/-- The eclipse state machine of `get_sat_data` lines 215-220: entering
shadow records `shadow_start`; leaving shadow while one is recorded emits
the closed interval `[shadow_start, date]` and clears it. -/
def shadowStep (inSh : Bool) (date : Int) (st : GenState) : GenState :=
  let st2 :=
    if inSh = true ∧ st.shadowStart = none then
      { st with shadowStart := some date }
    else st
  match st2.shadowStart with
  | some s =>
      if inSh = false then
        { st2 with intervals := st2.intervals ++ [(s, date)],
                   shadowStart := none }
      else st2
  | none => st2

/-- One iteration of the inner loop of `get_sat_data`, lines 185-220, for
segment `i` (control epoch `ei`, segment step count `steps`) at step `j`:
evaluate the spline at `t = i + j/steps`; the sample date is
`start + j*5` seconds; when `j == 0` convert to Earth-fixed coordinates and
append a trajectory point carrying the altitude; then run the shadow
predicate on the interpolated position scaled to metres and update the
shadow state machine. -/
def doSample (E : Ext) (ei : Epoch) (i steps j : Nat) (st : GenState) :
    GenState :=
  let t : ℚ := (i : ℚ) + (j : ℚ) / (steps : ℚ)
  let pt := E.curveEval t
  let date : Int := ei.date + 5 * (j : Int)
  let st1 :=
    if j = 0 then
      let r := E.gcrfToItrf pt ei.velocity date
      { st with sat := st.sat ++ [⟨date, r, some (E.altitudeOf r)⟩] }
    else st
  shadowStep (E.inShadow date (1000 * pt.1, 1000 * pt.2.1, 1000 * pt.2.2))
    date st1


/-- The inner loop `for j in range(steps)` of `get_sat_data` lines 185-220. -/
def segLoop (E : Ext) (ei : Epoch) (i steps : Nat) (st : GenState) :
    GenState :=
  (List.range steps).foldl (fun s j => doSample E ei i steps j s) st

/-- The outer loop `for i in range(len(epoches) - 1)` of `get_sat_data`
lines 179-220.  `epoches[i]` and `epoches[i+1]` are total in Python because
`i` ranges below `len - 1`; the default epoch of `getD` is never reached. -/
def genLoop (E : Ext) (epoches : List Epoch) (st0 : GenState) : GenState :=
  (List.range (epoches.length - 1)).foldl
    (fun st i =>
      let ei := epoches.getD i ⟨0, (0, 0, 0), (0, 0, 0)⟩
      let enext := epoches.getD (i + 1) ⟨0, (0, 0, 0), (0, 0, 0)⟩
      segLoop E ei i (segSteps ei.date enext.date) st)
    st0

/-- The full generation pass of `get_sat_data` lines 158-223: run both
loops from the empty state, then the terminal flush of lines 222-223, which
closes a still-open shadow interval at `epoches[-1]['date']` (the date of
the final decimated epoch; the flush is only reachable when the loops ran,
so `epoches` is non-empty there and `getD` never yields the default).
Returns the `sat` list and the `shadow_intervals` list. -/
def genRun (E : Ext) (epoches : List Epoch) :
    List SatPoint × List (Int × Int) :=
  let st := genLoop E epoches ⟨[], [], none⟩
  match st.shadowStart with
  | some s =>
      (st.sat, st.intervals ++ [(s, ((epoches.getLast?).map Epoch.date).getD 0)])
  | none => (st.sat, st.intervals)

/-- The per-segment step count of segment `i` of an epoch list, and the
total over all segments, as the claim's formula states them. -/
def segStepsAt (epoches : List Epoch) (i : Nat) : Nat :=
  segSteps ((epoches.getD i ⟨0, (0, 0, 0), (0, 0, 0)⟩).date)
    ((epoches.getD (i + 1) ⟨0, (0, 0, 0), (0, 0, 0)⟩).date)

/-- Sum over consecutive segments of `steps(segment)`. -/
def sumSteps (epoches : List Epoch) : Nat :=
  ((List.range (epoches.length - 1)).map (segStepsAt epoches)).sum

/-- The single trajectory point that segment `i` contributes, produced by
the `j == 0` branch of the inner loop: the sample date is the segment's
start date, the spline is evaluated at the integer parameter `i`, and the
altitude is always set. -/
def segPoint (E : Ext) (ei : Epoch) (i : Nat) : SatPoint :=
  let r := E.gcrfToItrf (E.curveEval (i : ℚ)) ei.velocity ei.date
  ⟨ei.date, r, some (E.altitudeOf r)⟩

theorem segSteps_pos (a b : Int) : 0 < segSteps a b := by
  unfold segSteps
  omega

/-- The shadow state machine never touches the `sat` list. -/
theorem shadowStep_sat (b : Bool) (d : Int) (st : GenState) :
    (shadowStep b d st).sat = st.sat := by
  unfold shadowStep
  by_cases h : b = true ∧ st.shadowStart = none
  · simp only [if_pos h]
    split <;> rfl
  · simp only [if_neg h]
    split
    · split <;> rfl
    · rfl

/-- A sample appends a point to `sat` exactly when `j = 0`, and then it
appends the segment point; the shadow bookkeeping never touches `sat`. -/
theorem doSample_sat (E : Ext) (ei : Epoch) (i steps j : Nat)
    (st : GenState) :
    (doSample E ei i steps j st).sat =
      if j = 0 then st.sat ++ [segPoint E ei i] else st.sat := by
  by_cases hj : j = 0
  · subst hj
    simp only [doSample, shadowStep_sat, segPoint, Nat.cast_zero, zero_div,
      add_zero, mul_zero, reduceIte]
  · simp only [doSample, shadowStep_sat, if_neg hj, reduceIte]

theorem doSample_sat_ne (E : Ext) (ei : Epoch) (i steps j : Nat)
    (st : GenState) (hj : j ≠ 0) :
    (doSample E ei i steps j st).sat = st.sat := by
  rw [doSample_sat, if_neg hj]

/-- Folding samples whose indices are all non-zero leaves `sat` unchanged. -/
theorem foldSamples_sat (E : Ext) (ei : Epoch) (i steps : Nat) :
    ∀ (l : List Nat), (∀ j ∈ l, j ≠ 0) → ∀ (st : GenState),
      (l.foldl (fun s j => doSample E ei i steps j s) st).sat = st.sat := by
  intro l
  induction l with
  | nil => intro _ st; rfl
  | cons j js ih =>
      intro hl st
      simp only [List.foldl_cons]
      rw [ih (fun x hx => hl x (List.mem_cons_of_mem j hx))]
      exact doSample_sat_ne E ei i steps j st (hl j (List.mem_cons_self j js))

/-- The inner loop of a segment appends exactly its one segment point. -/
theorem segLoop_sat (E : Ext) (ei : Epoch) (i steps : Nat)
    (hsteps : steps ≠ 0) (st : GenState) :
    (segLoop E ei i steps st).sat = st.sat ++ [segPoint E ei i] := by
  obtain ⟨k, rfl⟩ := Nat.exists_eq_succ_of_ne_zero hsteps
  unfold segLoop
  rw [List.range_succ_eq_map, List.foldl_cons]
  rw [foldSamples_sat E ei i (k + 1) _ (by simp) _]
  rw [doSample_sat, if_pos rfl]

/-- Folding segments accumulates one segment point per visited index. -/
theorem genLoopAux_sat (E : Ext) (eps : List Epoch) :
    ∀ (l : List Nat) (st0 : GenState),
      ((l.foldl
        (fun st i =>
          let ei := eps.getD i ⟨0, (0, 0, 0), (0, 0, 0)⟩
          let enext := eps.getD (i + 1) ⟨0, (0, 0, 0), (0, 0, 0)⟩
          segLoop E ei i (segSteps ei.date enext.date) st)
        st0).sat)
        = st0.sat
          ++ l.map (fun i => segPoint E (eps.getD i ⟨0, (0, 0, 0), (0, 0, 0)⟩) i) := by
  intro l
  induction l with
  | nil => intro st0; simp
  | cons i l ih =>
      intro st0
      simp only [List.foldl_cons, List.map_cons]
      rw [ih]
      rw [segLoop_sat _ _ _ _ (Nat.pos_iff_ne_zero.mp (segSteps_pos _ _)) _]
      simp

/-- `genRun` returns the `sat` list accumulated by the loops; the terminal
flush only touches the interval list. -/
theorem genRun_fst (E : Ext) (eps : List Epoch) :
    (genRun E eps).1 = (genLoop E eps ⟨[], [], none⟩).sat := by
  unfold genRun
  cases h : (genLoop E eps ⟨[], [], none⟩).shadowStart <;> simp [h]

/-- The generated trajectory is exactly one segment point per segment. -/
theorem genRun_sat_eq (E : Ext) (eps : List Epoch) :
    (genRun E eps).1
      = (List.range (eps.length - 1)).map
          (fun i => segPoint E (eps.getD i ⟨0, (0, 0, 0), (0, 0, 0)⟩) i) := by
  rw [genRun_fst]
  unfold genLoop
  rw [genLoopAux_sat]
  rfl

/-- The emitted trajectory timestamps are the segment start dates. -/
theorem genRun_dates (E : Ext) (eps : List Epoch) :
    ((genRun E eps).1).map SatPoint.date
      = (List.range (eps.length - 1)).map
          (fun i => (eps.getD i ⟨0, (0, 0, 0), (0, 0, 0)⟩).date) := by
  rw [genRun_sat_eq, List.map_map]
  rfl

/-- Trivial instantiation of the external collaborators, used for concrete
runs whose verified facts do not depend on the numeric values. -/
def ExtZero : Ext :=
  ⟨fun _ => (0, 0, 0), fun p _ _ => p, fun _ => 0, fun _ _ => false⟩

/-- Two decimated epochs 10 seconds apart: one segment of two 5-second
steps. -/
def epsPair : List Epoch :=
  [⟨0, (0, 0, 0), (0, 0, 0)⟩, ⟨10, (0, 0, 0), (0, 0, 0)⟩]

/-- C1, as stated, is false on the code: for two decimated epochs 10 s
apart, `sum over segments of steps(segment) = 2`, yet the generation loop
appends a trajectory point only in its `j == 0` branch and therefore emits
exactly 1 point, not 2. -/
theorem trajectory_count_counterexample :
    (genRun ExtZero epsPair).1.length = 1 ∧ sumSteps epsPair = 2 ∧
      ¬ (genRun ExtZero epsPair).1.length = sumSteps epsPair := by
  refine ⟨by decide, by decide, by decide⟩

/-- C1 (amended): for every DecimatedEpoch sequence of length n ≥ 2 with
strictly increasing timestamps, the TrajectorySynthesizer iterates
`steps(segment)` samples per segment but emits exactly one TrajectoryPoint
per consecutive segment — `n - 1` points in total, the i-th carrying the
i-th segment's start timestamp — forming one sequence with strictly
increasing timestamps; the trailing endpoint is excluded. -/
theorem trajectory_one_point_per_segment (E : Ext) (eps : List Epoch)
    (h2 : 2 ≤ eps.length)
    (hmono : List.Chain' (fun a b => a.date < b.date) eps) :
    ((genRun E eps).1).map SatPoint.date
        = (List.range (eps.length - 1)).map
            (fun i => (eps.getD i ⟨0, (0, 0, 0), (0, 0, 0)⟩).date)
      ∧ (genRun E eps).1.length = eps.length - 1
      ∧ List.Chain' (· < ·) (((genRun E eps).1).map SatPoint.date) := by
  have hdates := genRun_dates E eps
  refine ⟨hdates, ?_, ?_⟩
  · have hlen := congrArg List.length hdates
    simpa using hlen
  · rw [hdates, List.chain'_map]
    obtain ⟨m, hm⟩ : ∃ m, eps.length - 1 = m + 1 := ⟨eps.length - 2, by omega⟩
    rw [hm, ← Nat.succ_eq_add_one, List.chain'_range_succ]
    intro i hi
    have h0 : i < eps.length := by omega
    have h1 : i + 1 < eps.length := by omega
    rw [List.getD_eq_getElem _ _ h0, List.getD_eq_getElem _ _ h1]
    have hg := List.chain'_iff_get.mp hmono i (by omega)
    simpa [List.get_eq_getElem] using hg

/-- Closed instance of the amended C1 at the two-epoch input. -/
theorem trajectory_one_point_per_segment_witness :
    ((genRun ExtZero epsPair).1).map SatPoint.date
        = (List.range (epsPair.length - 1)).map
            (fun i => (epsPair.getD i ⟨0, (0, 0, 0), (0, 0, 0)⟩).date)
      ∧ (genRun ExtZero epsPair).1.length = epsPair.length - 1
      ∧ List.Chain' (· < ·) (((genRun ExtZero epsPair).1).map SatPoint.date) :=
  trajectory_one_point_per_segment ExtZero epsPair (by decide)
    (by simp [epsPair, List.chain'_cons, List.chain'_singleton])

/-- The three-epoch decimation scenario of the spec: timestamps `t0`,
`t0 + 100`, `t0 + 500`. -/
def rawScenario (t0 : Int) : List RawEpoch :=
  [⟨t0, (0, 0, 0), (0, 0, 0)⟩, ⟨t0 + 100, (0, 0, 0), (0, 0, 0)⟩,
    ⟨t0 + 500, (0, 0, 0), (0, 0, 0)⟩]

/-- C2, as stated, is false on the code: the decimation loop iterates
`range(len(raw_epoches) - 1)` and never examines the last raw epoch, so for
the spec's 3-epoch scenario at 0 s / 100 s / 500 s the decimated output has
exactly 1 entry (the epoch at 0 s), not the claimed 2. -/
theorem decimate_scenario_counterexample :
    decimate (rawScenario 0) = [⟨0, (0, 0, 0), (0, 0, 0)⟩] ∧
      ¬ (decimate (rawScenario 0)).length = 2 := by
  refine ⟨by decide, by decide⟩

/-- C2 (amended): the EpochDecimator examines every input epoch except the
last (the output is insensitive to the final input epoch), and on the
epochs it examines it keeps exactly the first and those whose timestamp
minus the last kept epoch's timestamp is ≥ 240 s (`decimate` equals the
spec-worded keep rule applied to the input without its final element); in
particular, for 3 epochs at `t0`, `t0+100`, `t0+500` the decimated output
has exactly 1 entry, the epoch at `t0`. -/
theorem decimate_skips_last_input_epoch :
    (∀ (raw : List RawEpoch) (r r' : RawEpoch),
        decimate (raw ++ [r]) = decimate (raw ++ [r']))
      ∧ (∀ raw : List RawEpoch, decimate raw = keepRule raw.dropLast)
      ∧ (∀ t0 : Int, decimate (rawScenario t0)
          = [⟨t0, (0, 0, 0), (0, 0, 0)⟩]) := by
  refine ⟨?_, ?_, ?_⟩
  · intro raw r r'
    unfold decimate
    rw [List.dropLast_concat, List.dropLast_concat]
  · intro raw
    rw [decimate, keepRule_eq_decimateAux]
  · intro t0
    show decimateAux none (List.dropLast _) = _
    simp only [rawScenario, List.dropLast, decimateAux]
    norm_num

/-- Collaborators whose spline and shadow predicate realise the boolean
sample stream `[false, true, true]` on a single 15-second segment: the
spline is `t ↦ (t, 0, 0)` and the predicate tests whether the scaled
sample position is away from the origin, so it is false exactly at the
first sample (`t = 0`) of the first segment. -/
def ExtSh : Ext :=
  ⟨fun t => (t, 0, 0), fun p _ _ => p, fun _ => 0, fun _ p => decide (p.1 ≠ 0)⟩

/-- Two decimated epochs 15 seconds apart starting at `t0`: three samples,
at `t0`, `t0 + 5` and `t0 + 10`. -/
def epsSh (t0 : Int) : List Epoch :=
  [⟨t0, (0, 0, 0), (0, 0, 0)⟩, ⟨t0 + 15, (0, 0, 0), (0, 0, 0)⟩]

/-- Collaborators realising the same `[false, true, true]` stream for the
epoch pair starting at 0, through the sample dates alone: the predicate is
false at the date-0 sample and true at dates 5 and 10. -/
def ExtShDate : Ext :=
  ⟨fun _ => (0, 0, 0), fun p _ _ => p, fun _ => 0, fun d _ => decide (5 ≤ d)⟩

/-- C3, as stated, is false on the code: the sample stream
`[false, true, true]` at dates 0, 5, 10 (epochs at 0 and 15) flushes the
open interval at `epoches[-1]['date'] = 15`, the excluded trailing
endpoint, and not at the last sample's timestamp 10: the run yields
`[(5, 15)]`, not the claimed `[(5, 10)]`. -/
theorem shadow_flush_counterexample :
    (genRun ExtShDate (epsSh 0)).2 = [(5, 15)] ∧
      ¬ (genRun ExtShDate (epsSh 0)).2 = [(5, 10)] :=
  ⟨by decide, by decide⟩

/-- C3 (amended): if the ShadowDetector is still in the Eclipsed state
after processing the last sample, it emits a final ShadowInterval whose end
timestamp is the date of the last decimated epoch (the excluded trailing
endpoint, strictly after the last sample); in particular a predicate stream
`[false, true, true]` sampled every 5 s from `t0` over epochs at `t0` and
`t0 + 15` yields exactly one ShadowInterval `[t0 + 5, t0 + 15]`. -/
theorem shadow_flush_at_last_epoch :
    (∀ (E : Ext) (eps : List Epoch) (s : Int) (hne : eps ≠ []),
        (genLoop E eps ⟨[], [], none⟩).shadowStart = some s →
          (genRun E eps).2
            = (genLoop E eps ⟨[], [], none⟩).intervals
                ++ [(s, (eps.getLast hne).date)])
      ∧ (∀ t0 : Int, (genRun ExtSh (epsSh t0)).2 = [(t0 + 5, t0 + 15)]) := by
  constructor
  · intro E eps s hne h
    simp [genRun, h, List.getLast?_eq_getLast_of_ne_nil hne]
  · intro t0
    have h15 : t0 + 15 - t0 = (15 : Int) := by ring
    simp only [genRun, genLoop, segLoop, segSteps, epsSh, ExtSh, doSample,
      shadowStep, List.length_cons, List.length_nil, List.getD, h15]
    norm_num [List.range_succ, List.foldl]
    simp

/-- Closed instance of the amended C3's flush rule at the concrete
three-sample run. -/
theorem shadow_flush_at_last_epoch_witness :
    (genRun ExtShDate (epsSh 0)).2
      = (genLoop ExtShDate (epsSh 0) ⟨[], [], none⟩).intervals
          ++ [(5, ((epsSh 0).getLast (by decide)).date)] :=
  shadow_flush_at_last_epoch.1 ExtShDate (epsSh 0) 5 (by decide) (by decide)

/-- The three durable artifacts of `data_store.py` (lines 18-21): the
satellite-data file, the shadow-intervals file and the timestamp file.
Each slot is `none` when the file does not exist.  The structure is
polymorphic in the slot contents: the cache-flow theorems store the
in-memory values (the JSON codec layer is studied separately by the
round-trip theorems), the round-trip theorems store the encoded forms. -/
structure Files (α β γ : Type) where
  satF : Option α
  shadF : Option β
  tsF : Option γ
  deriving DecidableEq

/-- Where, if anywhere, an exception interrupts the three sequential file
writes of `save_data` (`data_store.py` lines 88-107): before the satellite
file, between it and the shadow file, between the shadow file and the
timestamp file, or nowhere.  `atSat`/`atShadow`/`atTs` model an exception
raised while writing the named artifact (its own write is lost, the
earlier writes stand). -/
inductive FailAt
  | atSat
  | atShadow
  | atTs
  | ok
  deriving DecidableEq

/-- `save_data` (`data_store.py` lines 88-107): write the satellite data,
then the shadow intervals, then the timestamp, each with `open(..., 'w')`;
any exception is caught, logged, and turned into the return flag `False`,
leaving whatever was already written in place.  Returns the new file state
and the success flag. -/
def saveData {α β γ : Type} (a : α) (b : β) (c : γ) (fp : FailAt)
    (fs : Files α β γ) : Files α β γ × Bool :=
  match fp with
  | .atSat => (fs, false)
  | .atShadow => ({ fs with satF := some a }, false)
  | .atTs => ({ fs with satF := some a, shadF := some b }, false)
  | .ok => (⟨some a, some b, some c⟩, true)

/-- `load_data` (`data_store.py` lines 110-140), at the level of file
contents: if the satellite or the shadow file does not exist the function
returns the empty triple; a missing timestamp file then raises inside the
`try` and is caught, also yielding the empty triple; otherwise all three
artifacts are returned. -/
def loadData {α β γ : Type} (fs : Files α β γ) : Option (α × β × γ) :=
  match fs.satF, fs.shadF with
  | some a, some b =>
      match fs.tsF with
      | some c => some (a, b, c)
      | none => none
  | _, _ => none

/-- The module-level cache globals of `data_store.py` lines 31-33. -/
structure CacheState where
  satCache : Option (List SatPoint)
  shadowCache : Option (List (Int × Int))
  updatedAt : Option Int
  deriving DecidableEq

/-- The observable state `get_sat_data` and `sat_data` act on: the three
cache globals and the three durable files (in-memory values; the JSON
encoding of the file layer is treated by the round-trip theorems). -/
structure World where
  cache : CacheState
  files : Files (List SatPoint) (List (Int × Int)) Int
  deriving DecidableEq

/-- `load_data`'s effect on the world (`data_store.py` lines 132-137): on
success the three cache globals are set to the loaded artifacts; on any
failure the caches are untouched and the empty triple is returned. -/
def loadDataW (w : World) :
    World × Option (List SatPoint × List (Int × Int) × Int) :=
  match loadData w.files with
  | some (a, b, c) => ({ w with cache := ⟨some a, some b, some c⟩ }, some (a, b, c))
  | none => (w, none)

/-- `get_sat_data` (`data_store.py` lines 143-237) as a world transition.
`fetched` is the outcome of everything inside the `try` up to the spline
loops: `none` models an exception anywhere during fetch, parse or compute
(caught at line 235: the function logs and returns `[]`, touching neither
files nor caches); `some raw` is the parsed raw-epoch list.  On the
successful path the code decimates, runs the generation loops, calls
`save_data` — whose boolean result it IGNORES — and then unconditionally
overwrites the three cache globals and returns the point list.  `fp` is
where persistence fails, `now` is `datetime.now(utc)`. -/
def getSatData (fetched : Option (List RawEpoch)) (E : Ext) (fp : FailAt)
    (now : Int) (w : World) : World × List SatPoint :=
  match fetched with
  | none => (w, [])
  | some raw =>
      let eps := decimate raw
      let sat := (genRun E eps).1
      let shadows := (genRun E eps).2
      let saved := saveData sat shadows now fp w.files
      (⟨⟨some sat, some shadows, some now⟩, saved.1⟩, sat)

/-- The query payload returned by `sat_data` (`data_store.py` lines
240-266): the point list and the shadow-interval list. -/
structure QueryData where
  points : List SatPoint
  shadow_intervals : List (Int × Int)
  deriving DecidableEq

/-- `sat_data` (`data_store.py` lines 240-266) as a world transition: if
either cache global is unset, try `load_data`; if that fails, run
`get_sat_data` and retry `load_data`; if the retry also fails, return the
empty payload (the error is logged, not raised).  Otherwise the payload is
read from the cache globals. -/
def satDataQ (fetched : Option (List RawEpoch)) (E : Ext) (fp : FailAt)
    (now : Int) (w : World) : World × QueryData :=
  match w.cache.satCache, w.cache.shadowCache with
  | some sat, some shadows => (w, ⟨sat, shadows⟩)
  | _, _ =>
      let l1 := loadDataW w
      match l1.2 with
      | some (a, b, _) => (l1.1, ⟨a, b⟩)
      | none =>
          let g := getSatData fetched E fp now l1.1
          let l2 := loadDataW g.1
          match l2.2 with
          | some (a, b, _) => (l2.1, ⟨a, b⟩)
          | none => (l2.1, ⟨[], []⟩)

/-- Artifacts of an earlier generation A. -/
def genA : List SatPoint × List (Int × Int) × Int :=
  ([⟨0, (0, 0, 0), some 0⟩], [(1, 2)], 100)

/-- Artifacts of a later generation B, distinct from A's in every slot. -/
def genB : List SatPoint × List (Int × Int) × Int :=
  ([⟨5, (0, 0, 0), some 1⟩], [(3, 4)], 200)

/-- Durable state holding generation A's three artifacts. -/
def filesA : Files (List SatPoint) (List (Int × Int)) Int :=
  ⟨some genA.1, some genA.2.1, some genA.2.2⟩

/-- C4 is violated by the code: `save_data` performs three plain sequential
`open(..., 'w')` writes with no temporary-file-and-rename or other
transactional mechanism, so an exception while writing the shadow-intervals
file (after the points file was written) leaves the points file holding
generation B while the shadow file and the timestamp file still hold
generation A — and a subsequent consistent read (`load_data`) sees exactly
that mixed triple, which belongs neither to generation B nor to the earlier
generation A. -/
theorem save_partial_failure_mixes_generations :
    loadData (saveData genB.1 genB.2.1 genB.2.2 FailAt.atShadow filesA).1
        = some (genB.1, genA.2.1, genA.2.2)
      ∧ (saveData genB.1 genB.2.1 genB.2.2 FailAt.atShadow filesA).2 = false
      ∧ genB.1 ≠ genA.1 ∧ genA.2.1 ≠ genB.2.1 ∧ genA.2.2 ≠ genB.2.2 :=
  ⟨rfl, rfl, by decide, by decide, by decide⟩

/-- An in-memory record cached by an earlier generation, with empty files. -/
def wOld : World :=
  ⟨⟨some [⟨999, (0, 0, 0), some 0⟩], some [], some 0⟩, ⟨none, none, none⟩⟩

/-- Three raw epochs 240 s apart, decimating to two control epochs. -/
def raw3 : List RawEpoch :=
  [⟨0, (0, 0, 0), (0, 0, 0)⟩, ⟨240, (0, 0, 0), (0, 0, 0)⟩,
    ⟨480, (0, 0, 0), (0, 0, 0)⟩]

/-- C5, as stated, is false on the code: when `save_data` fails at the very
first write (persisting nothing — the files are untouched and the flag is
`False`), `get_sat_data` ignores the flag and still overwrites the
in-memory cache with the fresh generation, so on a persist failure the
previously cached record is NOT left untouched. -/
theorem regenerate_swaps_cache_despite_persist_failure :
    (getSatData (some raw3) ExtZero FailAt.atSat 5 wOld).1.files = wOld.files
      ∧ (saveData (genRun ExtZero (decimate raw3)).1
          (genRun ExtZero (decimate raw3)).2 5 FailAt.atSat wOld.files).2 = false
      ∧ (getSatData (some raw3) ExtZero FailAt.atSat 5 wOld).1.cache.satCache
          ≠ wOld.cache.satCache :=
  ⟨rfl, rfl, by decide⟩

/-- C5 (amended): on any failure during fetch, parse or compute, the world
is untouched and `[]` is returned (the exception is caught and logged, not
raised); but after a successful generation the in-memory record is
replaced unconditionally — whatever the persist outcome `fp`, the cache
globals become the fresh generation's artifacts. -/
theorem regenerate_cache_semantics :
    (∀ (E : Ext) (fp : FailAt) (now : Int) (w : World),
        getSatData none E fp now w = (w, []))
      ∧ (∀ (raw : List RawEpoch) (E : Ext) (fp : FailAt) (now : Int)
          (w : World),
          (getSatData (some raw) E fp now w).1.cache
            = ⟨some (genRun E (decimate raw)).1,
                some (genRun E (decimate raw)).2, some now⟩) :=
  ⟨fun _ _ _ _ => rfl, fun _ _ _ _ _ => rfl⟩

/-- C6 (confirmed): a query finding no usable in-memory cache, whose
durable load yields nothing, and whose synchronous regeneration followed by
reload still yields nothing, returns the empty payload
(`points = []`, `shadow_intervals = []`); the function is total — every
error on the way is caught and logged inside `load_data`, `get_sat_data`
and `sat_data` themselves, never raised to the caller. -/
theorem query_degrades_to_empty (fetched : Option (List RawEpoch)) (E : Ext)
    (fp : FailAt) (now : Int) (w : World)
    (hcache : w.cache.satCache = none ∨ w.cache.shadowCache = none)
    (hload1 : loadData w.files = none)
    (hload2 : loadData (getSatData fetched E fp now w).1.files = none) :
    (satDataQ fetched E fp now w).2 = ⟨[], []⟩ := by
  unfold satDataQ loadDataW
  rcases hsat : w.cache.satCache with _ | sat <;>
    rcases hshad : w.cache.shadowCache with _ | shadows <;>
      simp [hsat, hshad, hload1, hload2] at hcache ⊢

/-- Closed instance of C6 on the fully empty world with a failing fetch. -/
theorem query_degrades_to_empty_witness :
    (satDataQ none ExtZero FailAt.ok 0
        ⟨⟨none, none, none⟩, ⟨none, none, none⟩⟩).2 = ⟨[], []⟩ :=
  query_degrades_to_empty none ExtZero FailAt.ok 0
    ⟨⟨none, none, none⟩, ⟨none, none, none⟩⟩ (Or.inl rfl) rfl rfl

/-- The skip condition of the query loops (`app.py` lines 35 and 54):
`(start_dt is not None and date < start_dt) or
 (end_dt is not None and date > end_dt)`. -/
def skipPoint (s e : Option Int) (d : Int) : Bool :=
  (match s with
    | some sd => decide (d < sd)
    | none => false)
  || (match e with
      | some ed => decide (ed < d)
      | none => false)

/-- The point-filtering loop of `get_iss_data_raw` (`app.py` lines 32-37):
`continue` past points matching the skip condition, append the rest in
order. -/
def rawFilter (s e : Option Int) : List SatPoint → List SatPoint
  | [] => []
  | p :: ps =>
      if skipPoint s e p.date then rawFilter s e ps
      else p :: rawFilter s e ps

/-- `get_iss_data_raw` (`app.py` lines 22-39), given the payload `sat_data`
returned and the parsed optional bounds. -/
def getIssDataRaw (s e : Option Int) (data : QueryData) : List SatPoint :=
  rawFilter s e data.points

/-- The point-filtering loop of `get_iss_data` (`app.py` lines 51-56),
textually duplicated from the raw route. -/
def wsFilter (s e : Option Int) : List SatPoint → List SatPoint
  | [] => []
  | p :: ps =>
      if skipPoint s e p.date then wsFilter s e ps
      else p :: wsFilter s e ps

/-- The response of `get_iss_data` (`app.py` line 58). -/
structure QueryResponse where
  points : List SatPoint
  shadowIntervals : List (Int × Int)
  deriving DecidableEq

/-- `get_iss_data` (`app.py` lines 41-58): filtered points plus the whole
cached shadow-interval list. -/
def getIssData (s e : Option Int) (data : QueryData) : QueryResponse :=
  ⟨wsFilter s e data.points, data.shadow_intervals⟩

/-- The claim's bound predicate: `from ≤ t` and `t ≤ to` for each bound
that is present, an absent bound imposing no constraint. -/
def inRangeB (s e : Option Int) (d : Int) : Bool :=
  (s.elim true fun sd => decide (sd ≤ d))
    && (e.elim true fun ed => decide (d ≤ ed))

/-- The loops' skip condition is the negation of the claim's bound
predicate. -/
theorem skipPoint_eq_not_inRangeB (s e : Option Int) (d : Int) :
    skipPoint s e d = ! inRangeB s e d := by
  cases s <;> cases e <;>
    simp [skipPoint, inRangeB, Bool.not_and, ← decide_not, decide_eq_decide,
      Int.not_le]

/-- The three-point payload of the inclusivity scenario: timestamps `t0`,
`t0 + 5`, `t0 + 10`. -/
def ptsScenario (t0 : Int) (p1 p2 p3 : (ℚ × ℚ × ℚ) × Option ℚ) :
    List SatPoint :=
  [⟨t0, p1.1, p1.2⟩, ⟨t0 + 5, p2.1, p2.2⟩, ⟨t0 + 10, p3.1, p3.2⟩]

/-- C8 (confirmed): `queryRawPoints` returns exactly the cached points
whose timestamp satisfies `from ≤ t ≤ to` for each present bound (absent
bound unconstrained), in cache order; in particular, for points at
`[t0, t0+5, t0+10]`, the query with `from = to = t0+5` returns exactly the
single point at `t0 + 5`. -/
theorem query_raw_points_inclusive_range :
    (∀ (s e : Option Int) (data : QueryData),
        getIssDataRaw s e data
          = data.points.filter (fun p => inRangeB s e p.date))
      ∧ (∀ (t0 : Int) (p1 p2 p3 : (ℚ × ℚ × ℚ) × Option ℚ),
          getIssDataRaw (some (t0 + 5)) (some (t0 + 5))
              ⟨ptsScenario t0 p1 p2 p3, []⟩
            = [⟨t0 + 5, p2.1, p2.2⟩]) := by
  constructor
  · intro s e data
    show rawFilter s e data.points = _
    induction data.points with
    | nil => rfl
    | cons p ps ih =>
        rw [rawFilter, skipPoint_eq_not_inRangeB, List.filter_cons]
        cases h : inRangeB s e p.date <;> simp [h, ih]
  · intro t0 p1 p2 p3
    have h1 : skipPoint (some (t0 + 5)) (some (t0 + 5)) t0 = true := by
      simp [skipPoint]
    have h2 : skipPoint (some (t0 + 5)) (some (t0 + 5)) (t0 + 5) = false := by
      simp [skipPoint]
    have h3 : skipPoint (some (t0 + 5)) (some (t0 + 5)) (t0 + 10) = true := by
      simp [skipPoint]
    show rawFilter _ _ _ = _
    rw [ptsScenario, rawFilter, rawFilter, rawFilter]
    simp only [h1, h2, h3, if_true, if_false, Bool.false_eq_true, reduceIte,
      rawFilter]

/-- The duplicated loop of the shadow route filters identically to the raw
route's loop. -/
theorem wsFilter_eq_rawFilter (s e : Option Int) (pts : List SatPoint) :
    wsFilter s e pts = rawFilter s e pts := by
  induction pts with
  | nil => rfl
  | cons p ps ih => rw [wsFilter, rawFilter, ih]

/-- C9 (confirmed): `queryWithShadows` returns a point sequence equal to
what `queryRawPoints` returns for the same bounds, together with the entire
cached shadow-interval list, unfiltered and independent of the requested
range. -/
theorem query_with_shadows_refines_raw :
    ∀ (s e : Option Int) (data : QueryData),
      (getIssData s e data).points = getIssDataRaw s e data
        ∧ (getIssData s e data).shadowIntervals = data.shadow_intervals := by
  intro s e data
  exact ⟨wsFilter_eq_rawFilter s e data.points, rfl⟩

/-- C10 (confirmed): every trajectory point a generation run emits has its
altitude field present: the only append is the `j == 0` branch of
`get_sat_data` (lines 207-211), which always sets `'altitude'`. -/
theorem generated_points_have_altitude (E : Ext) (eps : List Epoch)
    (p : SatPoint) (hp : p ∈ (genRun E eps).1) : p.altitude.isSome = true := by
  rw [genRun_sat_eq] at hp
  obtain ⟨i, _, rfl⟩ := List.mem_map.mp hp
  rfl

/-- Closed instance of C10 at the two-epoch run. -/
theorem generated_points_have_altitude_witness :
    (segPoint ExtZero (epsPair.getD 0 ⟨0, (0, 0, 0), (0, 0, 0)⟩)
        0).altitude.isSome = true :=
  generated_points_have_altitude ExtZero epsPair _
    (by rw [genRun_sat_eq]; simp [epsPair, List.range_succ])

/-- The decimal digit character for `n < 10`. -/
def dchar (n : Nat) : Char := Char.ofNat (48 + n)

/-- The numeric value of a decimal digit character. -/
def dval (c : Char) : Nat := c.toNat - 48

/-- Whether a character is a decimal digit. -/
def isDig (c : Char) : Bool := decide (48 ≤ c.toNat) && decide (c.toNat ≤ 57)

theorem dval_dchar (n : Nat) (h : n < 10) : dval (dchar n) = n := by
  interval_cases n <;> decide

theorem isDig_dchar (n : Nat) (h : n < 10) : isDig (dchar n) = true := by
  interval_cases n <;> decide

/-- Two-digit zero-padded rendering, as `isoformat` renders months, days,
hours, minutes and seconds. -/
def pad2 (n : Nat) : List Char := [dchar (n / 10), dchar (n % 10)]

/-- Four-digit zero-padded rendering, as `isoformat` renders years. -/
def pad4 (n : Nat) : List Char :=
  [dchar (n / 1000), dchar (n / 100 % 10), dchar (n / 10 % 10), dchar (n % 10)]

/-- Read exactly two digit characters. -/
def parse2 : List Char → Option (Nat × List Char)
  | c1 :: c2 :: rest =>
      if isDig c1 && isDig c2 then some (10 * dval c1 + dval c2, rest)
      else none
  | _ => none

/-- Read exactly four digit characters. -/
def parse4 : List Char → Option (Nat × List Char)
  | c1 :: c2 :: c3 :: c4 :: rest =>
      if isDig c1 && isDig c2 && isDig c3 && isDig c4 then
        some (1000 * dval c1 + 100 * dval c2 + 10 * dval c3 + dval c4, rest)
      else none
  | _ => none

/-- Consume one expected character. -/
def expectC (c : Char) : List Char → Option (List Char)
  | x :: rest => if x = c then some rest else none
  | [] => none

theorem parse2_pad2 (n : Nat) (h : n ≤ 99) (rest : List Char) :
    parse2 (pad2 n ++ rest) = some (n, rest) := by
  have h1 : n / 10 < 10 := by omega
  have h2 : n % 10 < 10 := by omega
  simp only [pad2, List.cons_append, List.nil_append, parse2,
    isDig_dchar _ h1, isDig_dchar _ h2, dval_dchar _ h1, dval_dchar _ h2,
    Bool.and_self, if_pos]
  have hv : 10 * (n / 10) + n % 10 = n := by omega
  rw [hv]

theorem parse4_pad4 (n : Nat) (h : n ≤ 9999) (rest : List Char) :
    parse4 (pad4 n ++ rest) = some (n, rest) := by
  have h1 : n / 1000 < 10 := by omega
  have h2 : n / 100 % 10 < 10 := by omega
  have h3 : n / 10 % 10 < 10 := by omega
  have h4 : n % 10 < 10 := by omega
  simp only [pad4, List.cons_append, List.nil_append, parse4,
    isDig_dchar _ h1, isDig_dchar _ h2, isDig_dchar _ h3, isDig_dchar _ h4,
    dval_dchar _ h1, dval_dchar _ h2, dval_dchar _ h3, dval_dchar _ h4,
    Bool.and_self, if_pos]
  have hv : 1000 * (n / 1000) + 100 * (n / 100 % 10) + 10 * (n / 10 % 10)
      + n % 10 = n := by omega
  rw [hv]

/-- A timezone-aware UTC datetime at second precision, the granularity the
spec guarantees for the durable layer (`timestamps preserved to second
precision`; sub-second precision is a declared non-goal). -/
structure DT where
  year : Nat
  month : Nat
  day : Nat
  hour : Nat
  minute : Nat
  second : Nat
  deriving DecidableEq

/-- The field bounds under which the fixed-width ISO rendering is
invertible (strict calendar bounds are narrower; these suffice for the
codec). -/
def DT.valid (d : DT) : Prop :=
  d.year ≤ 9999 ∧ d.month ≤ 99 ∧ d.day ≤ 99 ∧ d.hour ≤ 99 ∧
    d.minute ≤ 99 ∧ d.second ≤ 99

instance (d : DT) : Decidable d.valid := by
  unfold DT.valid
  infer_instance

/-- `datetime.isoformat()` for an aware UTC datetime at second precision:
`YYYY-MM-DDTHH:MM:SS+00:00`, as the character list. -/
def toISOChars (d : DT) : List Char :=
  pad4 d.year ++ '-' :: (pad2 d.month ++ '-' :: (pad2 d.day ++ 'T' ::
    (pad2 d.hour ++ ':' :: (pad2 d.minute ++ ':' ::
      (pad2 d.second ++ ['+', '0', '0', ':', '0', '0'])))))

/-- `datetime.isoformat()` (stdlib collaborator, modelled at second
precision, UTC). -/
def toISO (d : DT) : String := String.mk (toISOChars d)

/-- `datetime.fromisoformat` (stdlib collaborator) on such strings:
fixed-width fields with the UTC offset suffix; anything else fails. -/
def fromISOChars (l : List Char) : Option DT :=
  (parse4 l).bind fun py =>
  (expectC '-' py.2).bind fun l1 =>
  (parse2 l1).bind fun pmo =>
  (expectC '-' pmo.2).bind fun l2 =>
  (parse2 l2).bind fun pd =>
  (expectC 'T' pd.2).bind fun l3 =>
  (parse2 l3).bind fun ph =>
  (expectC ':' ph.2).bind fun l4 =>
  (parse2 l4).bind fun pmi =>
  (expectC ':' pmi.2).bind fun l5 =>
  (parse2 l5).bind fun ps =>
  if ps.2 = ['+', '0', '0', ':', '0', '0'] then
    some ⟨py.1, pmo.1, pd.1, ph.1, pmi.1, ps.1⟩
  else none

/-- String-level `datetime.fromisoformat`. -/
def fromISO (s : String) : Option DT := fromISOChars s.toList

theorem expectC_cons (c : Char) (l : List Char) :
    expectC c (c :: l) = some l := by
  simp [expectC]

/-- The ISO rendering parses back to the same datetime. -/
theorem fromISO_toISO (d : DT) (h : d.valid) : fromISO (toISO d) = some d := by
  obtain ⟨hy, hmo, hd, hh, hmi, hs⟩ := h
  show fromISOChars (String.toList (String.mk (toISOChars d))) = some d
  rw [show String.toList (String.mk (toISOChars d)) = toISOChars d from rfl]
  rw [toISOChars, fromISOChars]
  rw [parse4_pad4 _ hy, Option.some_bind, expectC_cons, Option.some_bind,
    parse2_pad2 _ hmo, Option.some_bind, expectC_cons, Option.some_bind,
    parse2_pad2 _ hd, Option.some_bind, expectC_cons, Option.some_bind,
    parse2_pad2 _ hh, Option.some_bind, expectC_cons, Option.some_bind,
    parse2_pad2 _ hmi, Option.some_bind, expectC_cons, Option.some_bind,
    parse2_pad2 _ hs, Option.some_bind]
  rw [if_pos rfl]

/-- The dynamic value a `'date'` key can hold in the loaded dicts: a parsed
datetime, or the original string when `fromisoformat` fails (the
deserializer of `data_store.py` lines 77-85 keeps the string in that case). -/
inductive DateVal
  | dt (d : DT)
  | str (s : String)
  deriving DecidableEq

/-- An in-memory trajectory-point record as the persistence layer sees it:
the `date` value, the position (JSON numbers and arrays round-trip exactly
through `json.dump`/`json.load`, so they are carried as values), and the
optional altitude. -/
structure PointRec where
  date : DateVal
  location : ℚ × ℚ × ℚ
  altitude : Option ℚ
  deriving DecidableEq

/-- A trajectory-point record as stored in the JSON file: the `date` key
holds the ISO string produced by `_json_datetime_serialize`
(`data_store.py` lines 70-74). -/
structure JPoint where
  date : String
  location : ℚ × ℚ × ℚ
  altitude : Option ℚ
  deriving DecidableEq

/-- `_json_datetime_serialize`: a datetime serializes to its `isoformat`
string; a value that is already a string is dumped as-is by `json.dump`. -/
def encodeDate : DateVal → String
  | .dt d => toISO d
  | .str s => s

/-- The `object_hook` `_json_datetime_deserialize` on a `'date'` value:
parse with `fromisoformat`, keep the string when parsing fails. -/
def decodeDate (s : String) : DateVal :=
  match fromISO s with
  | some d => .dt d
  | none => .str s

/-- Point-record serialization performed by `json.dump` with the datetime
default. -/
def encodePoint (p : PointRec) : JPoint :=
  ⟨encodeDate p.date, p.location, p.altitude⟩

/-- Point-record deserialization performed by `json.load` with the object
hook. -/
def decodePoint (j : JPoint) : PointRec :=
  ⟨decodeDate j.date, j.location, j.altitude⟩

/-- `save_data` at the JSON codec level: the points are encoded and the
timestamp is written as the ISO rendering of `now`. -/
def persistRecord (pts : List PointRec) (shadows : List (Int × Int))
    (now : DT) (fp : FailAt)
    (fs : Files (List JPoint) (List (Int × Int)) String) :
    Files (List JPoint) (List (Int × Int)) String × Bool :=
  saveData (pts.map encodePoint) shadows (toISO now) fp fs

/-- `load_data` at the JSON codec level: read the three artifacts, parse
the timestamp with `fromisoformat` (a failure raises inside the `try` and
yields the empty triple), and run the object hook over the loaded points. -/
def loadRecord (fs : Files (List JPoint) (List (Int × Int)) String) :
    Option (List PointRec × List (Int × Int) × DT) :=
  match loadData fs with
  | none => none
  | some (jpts, shadows, ts) =>
      match fromISO ts with
      | none => none
      | some t => some (jpts.map decodePoint, shadows, t)

/-- A record the system itself created: its `date` value is a datetime with
renderable fields. -/
def PointRec.validDate (p : PointRec) : Prop :=
  ∃ d : DT, p.date = DateVal.dt d ∧ d.valid

theorem decode_encode_point (p : PointRec) (h : p.validDate) :
    decodePoint (encodePoint p) = p := by
  obtain ⟨d, hd, hv⟩ := h
  cases p with
  | mk pd pl pa =>
      simp only at hd
      subst hd
      simp [decodePoint, encodePoint, encodeDate, decodeDate,
        fromISO_toISO d hv]

/-- C7 (confirmed): `persist(record)` followed by `load()` yields a record
equal to the original — the same trajectory points, with timestamps
preserved (to second precision, through the ISO round trip), and the same
shadow-interval list (and the generation timestamp written by persist). -/
theorem persist_load_round_trip (pts : List PointRec)
    (shadows : List (Int × Int)) (now : DT)
    (fs : Files (List JPoint) (List (Int × Int)) String)
    (hpts : ∀ p ∈ pts, p.validDate) (hnow : now.valid) :
    loadRecord (persistRecord pts shadows now FailAt.ok fs).1
      = some (pts, shadows, now) := by
  simp only [persistRecord, saveData, loadRecord, loadData,
    fromISO_toISO now hnow]
  rw [List.map_map]
  have hmap : pts.map (decodePoint ∘ encodePoint) = pts := by
    rw [show pts = pts.map id from (List.map_id pts).symm]
    rw [List.map_map]
    exact List.map_congr_left fun p hp => decode_encode_point p (hpts p hp)
  rw [hmap]

/-- Closed instance of C7 on a one-point record. -/
theorem persist_load_round_trip_witness :
    loadRecord (persistRecord
        [⟨DateVal.dt ⟨2024, 1, 2, 3, 4, 5⟩, (0, 0, 0), some 0⟩]
        [(1, 2)] ⟨2024, 1, 2, 3, 4, 6⟩ FailAt.ok ⟨none, none, none⟩).1
      = some ([⟨DateVal.dt ⟨2024, 1, 2, 3, 4, 5⟩, (0, 0, 0), some 0⟩],
          [(1, 2)], ⟨2024, 1, 2, 3, 4, 6⟩) :=
  persist_load_round_trip _ _ _ _
    (fun p hp => by
      simp only [List.mem_singleton] at hp
      exact hp ▸ ⟨⟨2024, 1, 2, 3, 4, 5⟩, rfl, by decide⟩)
    (by decide)

end Moonly
